import Mathlib

/-!
Verification of the in-memory AWS services registry (`src/FastAPI/api.py`
with error constructors from `src/FastAPI/errors.py`).

The registry is a mutable global list of `{'name': ..., 'category': ...}`
dictionaries.  The four HTTP handlers are embedded as pure functions over an
explicit registry value:

* `get_services`           — `GET /services` (lines 49–60)
* `add_service`            — `POST /services` (lines 63–77)
* `delete_service`         — `DELETE /services/{name}` (lines 80–93)
* `delete_service_exact`   — `DELETE /services/{name}/{category}` (lines 96–108)

Raised `HTTPException`s become `Except ApiError` results; a raised exception
leaves the registry untouched, which `applyOp` makes explicit.
-/

namespace AwsServices

/-- Python's `str.lower()` as used by the handlers: character-wise
lowercasing (`Char.toLower` maps `A`–`Z` to `a`–`z` and fixes everything
else, matching CPython for the ASCII data used here). -/
def lower (s : String) : String := ⟨s.data.map Char.toLower⟩

/-- Python's `str.isdigit()`: the string is nonempty and every character is
a digit. -/
def isdigit (s : String) : Bool := !s.data.isEmpty && s.data.all Char.isDigit

/-- One registry record: `{'name': ..., 'category': ...}`. -/
structure Service where
  name : String
  category : String
deriving DecidableEq

/-- The registry: an ordered list of records (`aws_services` in the source). -/
abbrev Registry := List Service

/-- The error taxonomy of `errors.py`: `bad_request` (HTTP 400),
`conflict` (HTTP 409), `not_found` (HTTP 404). -/
inductive ApiError where
  | invalidInput
  | conflict
  | notFound
deriving DecidableEq

/-- The seed registry (api.py lines 30–36). -/
def aws_services : Registry := [
  ⟨"S3", "Storage"⟩,
  ⟨"Lambda", "Compute"⟩,
  ⟨"EC2", "Compute"⟩,
  ⟨"RDS", "Database"⟩,
  ⟨"DynamoDB", "Database"⟩]

/-- `GET /services` (api.py lines 49–60).  Each query parameter defaults to
`None`; Python's `if name:` skips the filter when the parameter is absent
(`none`) or the empty string. -/
def get_services (reg : Registry) (name category : Option String) : Registry :=
  let results := reg
  let results := match name with
    | some n => if n = "" then results else results.filter fun s => lower s.name == lower n
    | none => results
  let results := match category with
    | some c => if c = "" then results else results.filter fun s => lower s.category == lower c
    | none => results
  results

/-- `POST /services` (api.py lines 63–77): reject missing/empty fields
(`bad_request`), then duplicate (name, category) pairs case-insensitively
(`conflict`), then digits-only names (`bad_request`); otherwise append the
new record and return the whole updated registry. -/
def add_service (reg : Registry) (name category : String) : Except ApiError Registry :=
  if name = "" ∨ category = "" then Except.error ApiError.invalidInput
  else if reg.any fun s => lower s.name == lower name && lower s.category == lower category then
    Except.error ApiError.conflict
  else if isdigit name then Except.error ApiError.invalidInput
  else Except.ok (reg ++ [⟨name, category⟩])

/-- The `for idx, s in enumerate(...)`/`break` loop of both DELETE handlers:
index of the first record satisfying `p`, if any. -/
def findMatchIdx (p : Service → Bool) : Registry → Option Nat
  | [] => none
  | s :: tl => if p s then some 0 else (findMatchIdx p tl).map (· + 1)

/-- Shared shape of both DELETE handlers: find the first matching record,
`pop` it, return the updated registry; `not_found` when there is no match. -/
def removeFirstMatch (p : Service → Bool) (reg : Registry) : Except ApiError Registry :=
  match findMatchIdx p reg with
  | none => Except.error ApiError.notFound
  | some i => Except.ok (reg.eraseIdx i)

/-- `DELETE /services/{name}` (api.py lines 80–93): case-insensitive match
on the name only; first match is popped. -/
def delete_service (reg : Registry) (name : String) : Except ApiError Registry :=
  removeFirstMatch (fun s => lower s.name == lower name) reg

/-- `DELETE /services/{name}/{category}` (api.py lines 96–108):
case-insensitive match on both fields; first match is popped. -/
def delete_service_exact (reg : Registry) (name category : String) : Except ApiError Registry :=
  removeFirstMatch
    (fun s => lower s.name == lower name && lower s.category == lower category) reg

/-- One client-visible operation of the API surface. -/
inductive Op where
  | list (name category : Option String)
  | add (name category : String)
  | removeByName (name : String)
  | removeByNameAndCategory (name category : String)

/-- The response a handler produces for an operation on a given registry
state. -/
def opResult (reg : Registry) : Op → Except ApiError Registry
  | Op.list n c => Except.ok (get_services reg n c)
  | Op.add n c => add_service reg n c
  | Op.removeByName n => delete_service reg n
  | Op.removeByNameAndCategory n c => delete_service_exact reg n c

/-- The registry state after an operation: `GET` never mutates, and a raised
`HTTPException` happens before any mutation, so an error leaves the state
as it was. -/
def applyOp (reg : Registry) : Op → Registry
  | Op.list _ _ => reg
  | Op.add n c =>
    match add_service reg n c with
    | Except.ok r => r
    | Except.error _ => reg
  | Op.removeByName n =>
    match delete_service reg n with
    | Except.ok r => r
    | Except.error _ => reg
  | Op.removeByNameAndCategory n c =>
    match delete_service_exact reg n c with
    | Except.ok r => r
    | Except.error _ => reg

/-- The registry state after a whole sequence of operations. -/
def run (reg : Registry) (ops : List Op) : Registry := ops.foldl applyOp reg

/-- Case-insensitive identity of a record. -/
def serviceKey (s : Service) : String × String := (lower s.name, lower s.category)

/-- Data-model invariant: no two records share a (name, category) pair
case-insensitively. -/
def PairsNodup (reg : Registry) : Prop := (reg.map serviceKey).Nodup

/-- Data-model invariant: no record's name is digits-only. -/
def NamesNotNumeric (reg : Registry) : Prop := ∀ s ∈ reg, isdigit s.name = false

/-- Data-model invariant: records carry non-empty text in both fields. -/
def FieldsNonEmpty (reg : Registry) : Prop := ∀ s ∈ reg, s.name ≠ "" ∧ s.category ≠ ""

/-- What §4.1 of the spec says `list` returns: exactly the records matching
every given filter case-insensitively, in registry order. -/
def listSpecFilter (reg : Registry) (name category : Option String) : Registry :=
  reg.filter fun s =>
    (match name with | some n => lower s.name == lower n | none => true) &&
    (match category with | some c => lower s.category == lower c | none => true)

/-! ### Helper lemmas -/

theorem isDigit_toLower (c : Char) : (Char.toLower c).isDigit = c.isDigit := by
  rw [show Char.toLower c
      = if Char.toNat c ≥ 65 ∧ Char.toNat c ≤ 90 then Char.ofNat (Char.toNat c + 32) else c
    from rfl]
  split
  · rename_i h
    have hv : ((Char.toNat c + 32)).isValidChar := Or.inl (by omega)
    have hval : (Char.ofNat (Char.toNat c + 32)).toNat = Char.toNat c + 32 := by
      rw [Char.ofNat, dif_pos hv]
      simp [Char.ofNatAux, Char.toNat, UInt32.toNat]
    have h1 : (Char.ofNat (Char.toNat c + 32)).isDigit = false := by
      simp only [Char.isDigit]
      have hle : ¬ ((Char.ofNat (Char.toNat c + 32)).val ≤ 57) := by
        rw [UInt32.le_def, BitVec.le_def]
        have h57 : (57 : UInt32).toBitVec.toNat = 57 := by decide
        rw [h57]
        have h2 : (Char.ofNat (Char.toNat c + 32)).val.toBitVec.toNat = Char.toNat c + 32 := hval
        omega
      simp [hle]
    have h2 : c.isDigit = false := by
      simp only [Char.isDigit]
      have hle : ¬ (c.val ≤ (57 : UInt32)) := by
        rw [UInt32.le_def, BitVec.le_def]
        have h57 : (57 : UInt32).toBitVec.toNat = 57 := by decide
        rw [h57]
        have hc : c.val.toBitVec.toNat = Char.toNat c := rfl
        omega
      simp [hle]
    rw [h1, h2]
  · rfl

theorem lower_empty_iff (s : String) : lower s = "" ↔ s = "" := by
  simp [lower, String.ext_iff]

theorem isdigit_lower (s : String) : isdigit (lower s) = isdigit s := by
  rcases s with ⟨data⟩
  cases data <;>
    simp [isdigit, lower, List.all_map, Function.comp_def, isDigit_toLower]

theorem ne_empty_of_isdigit {s : String} (h : isdigit s = true) : s ≠ "" := by
  intro he
  subst he
  simp [isdigit] at h

theorem add_service_ok_iff {reg : Registry} {n c : String} {r : Registry} :
    add_service reg n c = Except.ok r ↔
      n ≠ "" ∧ c ≠ "" ∧
      (reg.any fun s => lower s.name == lower n && lower s.category == lower c) = false ∧
      isdigit n = false ∧ r = reg ++ [⟨n, c⟩] := by
  by_cases h1 : n = "" ∨ c = ""
  · rw [add_service, if_pos h1]
    rcases h1 with h | h <;> simp [h]
  · rw [add_service, if_neg h1]
    push_neg at h1
    by_cases h2 :
        (reg.any fun s => lower s.name == lower n && lower s.category == lower c) = true
    · rw [if_pos h2]
      simp [h2]
    · rw [if_neg h2]
      simp only [Bool.not_eq_true] at h2
      by_cases h3 : isdigit n = true
      · rw [if_pos h3]
        simp [h3]
      · rw [if_neg h3]
        simp only [Bool.not_eq_true] at h3
        simp [h1.1, h1.2, h2, h3, eq_comm]

theorem findMatchIdx_eq_none {p : Service → Bool} {reg : Registry} :
    findMatchIdx p reg = none ↔ ∀ s ∈ reg, p s = false := by
  induction reg with
  | nil => simp [findMatchIdx]
  | cons a tl ih => by_cases h : p a <;> simp [findMatchIdx, h, ih]

theorem findMatchIdx_append (p : Service → Bool) (l₁ : Registry) (m : Service) (l₂ : Registry)
    (h₁ : ∀ b ∈ l₁, p b = false) (hm : p m = true) :
    findMatchIdx p (l₁ ++ m :: l₂) = some l₁.length := by
  induction l₁ with
  | nil => simp [findMatchIdx, hm]
  | cons a tl ih =>
    have ha : p a = false := h₁ a (by simp)
    simp [findMatchIdx, ha, ih (fun b hb => h₁ b (by simp [hb]))]

theorem eraseIdx_append_length (l₁ : Registry) (m : Service) (l₂ : Registry) :
    (l₁ ++ m :: l₂).eraseIdx l₁.length = l₁ ++ l₂ := by
  induction l₁ with
  | nil => rfl
  | cons a tl ih => simp [ih]

theorem removeFirstMatch_error_iff (p : Service → Bool) (reg : Registry) :
    removeFirstMatch p reg = Except.error ApiError.notFound ↔ ∀ s ∈ reg, p s = false := by
  unfold removeFirstMatch
  cases hf : findMatchIdx p reg with
  | none => exact iff_of_true rfl (findMatchIdx_eq_none.mp hf)
  | some i =>
    constructor
    · intro h; cases h
    · intro hall
      have := findMatchIdx_eq_none.mpr hall
      rw [hf] at this
      cases this

theorem removeFirstMatch_first (p : Service → Bool) (l₁ : Registry) (m : Service)
    (l₂ : Registry) (h₁ : ∀ b ∈ l₁, p b = false) (hm : p m = true) :
    removeFirstMatch p (l₁ ++ m :: l₂) = Except.ok (l₁ ++ l₂) := by
  unfold removeFirstMatch
  rw [findMatchIdx_append p l₁ m l₂ h₁ hm]
  show Except.ok ((l₁ ++ m :: l₂).eraseIdx l₁.length) = Except.ok (l₁ ++ l₂)
  rw [eraseIdx_append_length]

theorem removeFirstMatch_ok_sublist {p : Service → Bool} {reg r : Registry}
    (h : removeFirstMatch p reg = Except.ok r) : r.Sublist reg := by
  unfold removeFirstMatch at h
  cases hf : findMatchIdx p reg with
  | none => rw [hf] at h; cases h
  | some i =>
    rw [hf] at h
    injection h with h
    rw [← h]
    exact List.eraseIdx_sublist reg i

/-! ### Claims -/

/-- C1 (counterexample): the claim quantifies over every *given* filter, but
`get_services` treats an empty filter string like an absent one: with
`nameFilter = ""` it returns the whole seed registry instead of the records
whose name equals `""` case-insensitively (there are none). -/
theorem get_services_empty_filter_counterexample :
    get_services aws_services (some "") none ≠ listSpecFilter aws_services (some "") none := by
  decide

/-- C1 (amended): for every registry state and every given *non-empty*
`nameFilter` and/or `categoryFilter`, `get_services` returns exactly the
records whose name (resp. category) equals the filter case-insensitively
(exact match, not substring), both filters applied when both are given, in
registry order; it never fails.  (An empty filter string is treated as no
filter.) -/
theorem get_services_eq_listSpecFilter (reg : Registry) (nf cf : Option String)
    (hn : ∀ n, nf = some n → n ≠ "") (hc : ∀ c, cf = some c → c ≠ "") :
    get_services reg nf cf = listSpecFilter reg nf cf := by
  cases nf with
  | none =>
    cases cf with
    | none => simp [get_services, listSpecFilter]
    | some c => simp [get_services, listSpecFilter, hc c rfl]
  | some n =>
    cases cf with
    | none => simp [get_services, listSpecFilter, hn n rfl]
    | some c =>
      simp only [get_services, listSpecFilter, if_neg (hn n rfl), if_neg (hc c rfl),
        List.filter_filter]
      exact List.filter_congr fun s _ => Bool.and_comm _ _

/-- C1 (witness): filtering the seed registry by category `"compute"`. -/
theorem get_services_eq_listSpecFilter_witness :
    get_services aws_services none (some "compute") =
      listSpecFilter aws_services none (some "compute") :=
  get_services_eq_listSpecFilter aws_services none (some "compute")
    (fun _ h => nomatch h)
    (fun c h => by injection h with h; subst h; decide)

/-- C2: for every registry state and non-empty `(name, category)` with no
case-insensitive duplicate in the registry and a name that is not
digits-only, `add_service` succeeds, appends exactly the one new record at
the end (prior records unchanged, in order), returns the whole updated
registry, and afterwards the pair occurs exactly once. -/
theorem add_service_appends (reg : Registry) (n c : String)
    (hn : n ≠ "") (hc : c ≠ "")
    (hfresh : ∀ s ∈ reg, ¬(lower s.name = lower n ∧ lower s.category = lower c))
    (hdig : isdigit n = false) :
    add_service reg n c = Except.ok (reg ++ [Service.mk n c]) ∧
      List.countP (fun s => lower s.name == lower n && lower s.category == lower c)
        (reg ++ [Service.mk n c]) = 1 := by
  have hany :
      (reg.any fun s => lower s.name == lower n && lower s.category == lower c) = false := by
    rw [List.any_eq_false]
    intro s hs
    simpa using hfresh s hs
  refine ⟨add_service_ok_iff.mpr ⟨hn, hc, hany, hdig, rfl⟩, ?_⟩
  rw [List.countP_append]
  have h0 : (reg.countP fun s => lower s.name == lower n && lower s.category == lower c) = 0 := by
    rw [List.countP_eq_zero]
    intro s hs
    simpa using hfresh s hs
  rw [h0]
  simp [List.countP_cons]

/-- C2 (witness): adding `("Redshift", "Database")` to the seed registry. -/
theorem add_service_appends_witness :
    add_service aws_services "Redshift" "Database" =
      Except.ok (aws_services ++ [Service.mk "Redshift" "Database"]) ∧
      List.countP
        (fun s => lower s.name == lower "Redshift" && lower s.category == lower "Database")
        (aws_services ++ [Service.mk "Redshift" "Database"]) = 1 :=
  add_service_appends aws_services "Redshift" "Database"
    (by decide) (by decide) (by decide) (by decide)

theorem pairsNodup_applyOp {reg : Registry} (op : Op) (h : PairsNodup reg) :
    PairsNodup (applyOp reg op) := by
  cases op with
  | list n c => exact h
  | add n c =>
    simp only [applyOp]
    cases hr : add_service reg n c with
    | error e => exact h
    | ok r =>
      obtain ⟨-, -, hany, -, rfl⟩ := add_service_ok_iff.mp hr
      rw [List.any_eq_false] at hany
      unfold PairsNodup at h ⊢
      rw [List.map_append, List.nodup_append]
      refine ⟨h, List.nodup_singleton _, ?_⟩
      simp only [List.map_cons, List.map_nil]
      rw [List.disjoint_singleton, List.mem_map]
      rintro ⟨s, hs, hks⟩
      have heq : lower s.name = lower n ∧ lower s.category = lower c := by
        simpa [serviceKey, Prod.ext_iff] using hks
      have hcontra := hany s hs
      simp only [Bool.and_eq_true, beq_iff_eq, not_and] at hcontra
      exact hcontra heq.1 heq.2
  | removeByName n =>
    simp only [applyOp]
    cases hr : delete_service reg n with
    | error e => exact h
    | ok r =>
      have hr' : removeFirstMatch (fun s => lower s.name == lower n) reg = Except.ok r := hr
      exact List.Nodup.sublist
        (List.Sublist.map serviceKey (removeFirstMatch_ok_sublist hr')) h
  | removeByNameAndCategory n c =>
    simp only [applyOp]
    cases hr : delete_service_exact reg n c with
    | error e => exact h
    | ok r =>
      have hr' : removeFirstMatch
          (fun s => lower s.name == lower n && lower s.category == lower c) reg
          = Except.ok r := hr
      exact List.Nodup.sublist
        (List.Sublist.map serviceKey (removeFirstMatch_ok_sublist hr')) h

theorem namesNotNumeric_applyOp {reg : Registry} (op : Op) (h : NamesNotNumeric reg) :
    NamesNotNumeric (applyOp reg op) := by
  cases op with
  | list n c => exact h
  | add n c =>
    simp only [applyOp]
    cases hr : add_service reg n c with
    | error e => exact h
    | ok r =>
      obtain ⟨-, -, -, hdig, rfl⟩ := add_service_ok_iff.mp hr
      intro s hs
      rcases List.mem_append.mp hs with hs | hs
      · exact h s hs
      · simp only [List.mem_singleton] at hs
        subst hs
        exact hdig
  | removeByName n =>
    simp only [applyOp]
    cases hr : delete_service reg n with
    | error e => exact h
    | ok r =>
      have hr' : removeFirstMatch (fun s => lower s.name == lower n) reg = Except.ok r := hr
      exact fun s hs => h s ((removeFirstMatch_ok_sublist hr').subset hs)
  | removeByNameAndCategory n c =>
    simp only [applyOp]
    cases hr : delete_service_exact reg n c with
    | error e => exact h
    | ok r =>
      have hr' : removeFirstMatch
          (fun s => lower s.name == lower n && lower s.category == lower c) reg
          = Except.ok r := hr
      exact fun s hs => h s ((removeFirstMatch_ok_sublist hr').subset hs)

theorem run_preserves {P : Registry → Prop}
    (hstep : ∀ (reg : Registry) (op : Op), P reg → P (applyOp reg op)) :
    ∀ (ops : List Op) (reg : Registry), P reg → P (run reg ops) := by
  intro ops
  induction ops with
  | nil => exact fun reg h => h
  | cons op tl ih => exact fun reg h => ih (applyOp reg op) (hstep reg op h)

/-- C3: starting from the seed registry, after any sequence of
list/add/removeByName/removeByNameAndCategory operations, no two records
share the same (name, category) pair under case-insensitive comparison. -/
theorem run_seed_pairsNodup (ops : List Op) : PairsNodup (run aws_services ops) :=
  run_preserves (fun _ op h => pairsNodup_applyOp op h) ops aws_services
    (by unfold PairsNodup; decide)

/-- C9: starting from the seed registry, after any sequence of operations,
no record's name is purely numeric (digits-only names are rejected at
insertion; the seed has none). -/
theorem run_seed_namesNotNumeric (ops : List Op) : NamesNotNumeric (run aws_services ops) :=
  run_preserves (fun _ op h => namesNotNumeric_applyOp op h) ops aws_services
    (by unfold NamesNotNumeric; decide)

/-- C4: on any registry state satisfying the data model (records carry
non-empty text fields), `add_service` with a (name, category) pair equal
case-insensitively to one already present always fails with `Conflict`,
and the registry is unchanged. -/
theorem add_service_duplicate_conflict (reg : Registry) (n c : String)
    (hfields : FieldsNonEmpty reg)
    (hdup : ∃ s ∈ reg, lower s.name = lower n ∧ lower s.category = lower c) :
    add_service reg n c = Except.error ApiError.conflict ∧
      applyOp reg (Op.add n c) = reg := by
  obtain ⟨s, hs, hnm, hcat⟩ := hdup
  have hn' : n ≠ "" := by
    intro he
    subst he
    have h0 : lower s.name = "" := by rw [hnm]; rfl
    exact (hfields s hs).1 ((lower_empty_iff _).mp h0)
  have hc' : c ≠ "" := by
    intro he
    subst he
    have h0 : lower s.category = "" := by rw [hcat]; rfl
    exact (hfields s hs).2 ((lower_empty_iff _).mp h0)
  have hany :
      (reg.any fun s => lower s.name == lower n && lower s.category == lower c) = true :=
    List.any_eq_true.mpr ⟨s, hs, by simp [hnm, hcat]⟩
  have hadd : add_service reg n c = Except.error ApiError.conflict := by
    rw [add_service, if_neg (by tauto), if_pos hany]
  exact ⟨hadd, by simp [applyOp, hadd]⟩

/-- C4 (witness): re-adding `("s3", "storage")` against the seed record
`("S3", "Storage")`. -/
theorem add_service_duplicate_conflict_witness :
    add_service aws_services "s3" "storage" = Except.error ApiError.conflict ∧
      applyOp aws_services (Op.add "s3" "storage") = aws_services :=
  add_service_duplicate_conflict aws_services "s3" "storage"
    (by unfold FieldsNonEmpty; decide) (by decide)

/-- C5: on any registry state satisfying the data-model invariant that no
stored name is digits-only, `add_service` with a non-empty digits-only
name always fails with `InvalidInput`, and the registry is unchanged. -/
theorem add_service_digits_invalid (reg : Registry) (n c : String)
    (hinv : NamesNotNumeric reg) (hd : isdigit n = true) :
    add_service reg n c = Except.error ApiError.invalidInput ∧
      applyOp reg (Op.add n c) = reg := by
  have hn' : n ≠ "" := ne_empty_of_isdigit hd
  by_cases hc : c = ""
  · have hadd : add_service reg n c = Except.error ApiError.invalidInput := by
      rw [add_service, if_pos (Or.inr hc)]
    exact ⟨hadd, by simp [applyOp, hadd]⟩
  · have hany :
        (reg.any fun s => lower s.name == lower n && lower s.category == lower c) = false := by
      rw [List.any_eq_false]
      intro s hs
      simp only [Bool.and_eq_true, beq_iff_eq, not_and]
      intro hnm _
      have : isdigit s.name = true := by
        rw [← isdigit_lower, hnm, isdigit_lower]
        exact hd
      rw [hinv s hs] at this
      cases this
    have hadd : add_service reg n c = Except.error ApiError.invalidInput := by
      rw [add_service, if_neg (by tauto), if_neg (by simp [hany]), if_pos hd]
    exact ⟨hadd, by simp [applyOp, hadd]⟩

/-- C5 (witness): adding the digits-only name `"123"` to the seed
registry. -/
theorem add_service_digits_invalid_witness :
    add_service aws_services "123" "Compute" = Except.error ApiError.invalidInput ∧
      applyOp aws_services (Op.add "123" "Compute") = aws_services :=
  add_service_digits_invalid aws_services "123" "Compute"
    (by unfold NamesNotNumeric; decide) (by decide)

/-- C10: with non-empty inputs whose pair is already present
case-insensitively and a digits-only name, `add_service` fails with
`Conflict`, not `InvalidInput`: the duplicate check runs before the
digits-only check. -/
theorem add_service_conflict_precedes_digits (reg : Registry) (n c : String)
    (hd : isdigit n = true) (hc : c ≠ "")
    (hdup : ∃ s ∈ reg, lower s.name = lower n ∧ lower s.category = lower c) :
    add_service reg n c = Except.error ApiError.conflict := by
  have hn' : n ≠ "" := ne_empty_of_isdigit hd
  obtain ⟨s, hs, hnm, hcat⟩ := hdup
  have hany :
      (reg.any fun s => lower s.name == lower n && lower s.category == lower c) = true :=
    List.any_eq_true.mpr ⟨s, hs, by simp [hnm, hcat]⟩
  rw [add_service, if_neg (by tauto), if_pos hany]

/-- C10 (witness): a registry already holding `("123", "Compute")`. -/
theorem add_service_conflict_precedes_digits_witness :
    add_service [Service.mk "123" "Compute"] "123" "Compute" =
      Except.error ApiError.conflict :=
  add_service_conflict_precedes_digits [Service.mk "123" "Compute"] "123" "Compute"
    (by decide) (by decide) (by decide)

/-- C6: `delete_service` fails with `NotFound` iff no record's name matches
the input case-insensitively; otherwise it removes exactly the first
matching record in registry order, leaves every other record in place and
in order, and returns the updated registry. -/
theorem delete_service_spec (reg : Registry) (n : String) :
    (delete_service reg n = Except.error ApiError.notFound ↔
      ∀ s ∈ reg, lower s.name ≠ lower n) ∧
    (∀ (l₁ : Registry) (m : Service) (l₂ : Registry), reg = l₁ ++ m :: l₂ →
      (∀ b ∈ l₁, lower b.name ≠ lower n) → lower m.name = lower n →
      delete_service reg n = Except.ok (l₁ ++ l₂)) := by
  constructor
  · rw [show delete_service reg n
        = removeFirstMatch (fun s => lower s.name == lower n) reg from rfl,
      removeFirstMatch_error_iff]
    simp
  · rintro l₁ m l₂ rfl h₁ hm
    exact removeFirstMatch_first (fun s => lower s.name == lower n) l₁ m l₂
      (fun b hb => by simpa using h₁ b hb) (by simpa using hm)

/-- C6 (witness): deleting `"s3"` removes the seed record `("S3", "Storage")`
and leaves the other four records in order. -/
theorem delete_service_spec_witness :
    delete_service aws_services "s3" =
      Except.ok [Service.mk "Lambda" "Compute", Service.mk "EC2" "Compute",
        Service.mk "RDS" "Database", Service.mk "DynamoDB" "Database"] :=
  (delete_service_spec aws_services "s3").2 [] (Service.mk "S3" "Storage")
    [Service.mk "Lambda" "Compute", Service.mk "EC2" "Compute",
      Service.mk "RDS" "Database", Service.mk "DynamoDB" "Database"]
    rfl (by decide) (by decide)

/-- C7: `delete_service_exact` fails with `NotFound` iff no record matches
both fields case-insensitively; otherwise it removes exactly the first
record matching both fields, leaves every other record in place and in
order, and returns the updated registry. -/
theorem delete_service_exact_spec (reg : Registry) (n c : String) :
    (delete_service_exact reg n c = Except.error ApiError.notFound ↔
      ∀ s ∈ reg, ¬(lower s.name = lower n ∧ lower s.category = lower c)) ∧
    (∀ (l₁ : Registry) (m : Service) (l₂ : Registry), reg = l₁ ++ m :: l₂ →
      (∀ b ∈ l₁, ¬(lower b.name = lower n ∧ lower b.category = lower c)) →
      lower m.name = lower n → lower m.category = lower c →
      delete_service_exact reg n c = Except.ok (l₁ ++ l₂)) := by
  constructor
  · rw [show delete_service_exact reg n c
        = removeFirstMatch
            (fun s => lower s.name == lower n && lower s.category == lower c) reg from rfl,
      removeFirstMatch_error_iff]
    simp
  · rintro l₁ m l₂ rfl h₁ hm hcat
    exact removeFirstMatch_first
      (fun s => lower s.name == lower n && lower s.category == lower c) l₁ m l₂
      (fun b hb => by simpa using h₁ b hb) (by simp [hm, hcat])

/-- C7 (witness): deleting `("rds", "database")` removes the seed record
`("RDS", "Database")` and leaves the other four records in order. -/
theorem delete_service_exact_spec_witness :
    delete_service_exact aws_services "rds" "database" =
      Except.ok ([Service.mk "S3" "Storage", Service.mk "Lambda" "Compute",
        Service.mk "EC2" "Compute"] ++ [Service.mk "DynamoDB" "Database"]) :=
  (delete_service_exact_spec aws_services "rds" "database").2
    [Service.mk "S3" "Storage", Service.mk "Lambda" "Compute", Service.mk "EC2" "Compute"]
    (Service.mk "RDS" "Database") [Service.mk "DynamoDB" "Database"]
    rfl (by decide) (by decide) (by decide)

/-- C8: every operation that fails — `add` with `InvalidInput` or
`Conflict`, either delete with `NotFound` — leaves the registry exactly as
it was (`GET` never fails and never mutates). -/
theorem failed_op_preserves_registry (reg : Registry) (op : Op) (e : ApiError)
    (h : opResult reg op = Except.error e) : applyOp reg op = reg := by
  cases op with
  | list n c => simp [opResult] at h
  | add n c =>
    simp only [opResult] at h
    simp [applyOp, h]
  | removeByName n =>
    simp only [opResult] at h
    simp [applyOp, h]
  | removeByNameAndCategory n c =>
    simp only [opResult] at h
    simp [applyOp, h]

/-- C8 (witness): deleting the absent name `"GCS"` fails with `NotFound`
and leaves the seed registry unchanged. -/
theorem failed_op_preserves_registry_witness :
    opResult aws_services (Op.removeByName "GCS") = Except.error ApiError.notFound ∧
      applyOp aws_services (Op.removeByName "GCS") = aws_services :=
  ⟨rfl, failed_op_preserves_registry aws_services (Op.removeByName "GCS")
    ApiError.notFound rfl⟩

end AwsServices
